import Mathlib

/-!
Chat backend (`main.go`): request handlers over a document store

The three HTTP handlers of `main.go` are embedded as pure functions from a
request, the environment of the call and the database to a response, the new
database and the list of driver calls that were made.

The handlers call into three libraries.  Their behaviour, as far as the
handlers depend on it, is part of the embedding and is stated next to each
definition:

* `encoding/json`: decoding a request body into a struct, encoding a value;
* `go.mongodb.org/mongo-driver/bson`: the default struct codec;
* `go.mongodb.org/mongo-driver/mongo`: `CountDocuments`, `InsertOne`,
  `Find` with a sort document, `Cursor.All`.

Log lines are not part of the embedding, nor is the `_id` member the driver
adds on insertion: no handler reads, filters or sorts on it.
-/

namespace ChatBackend

/-! ## Data model -/

/-- Instant of a Go `time.Time`, in nanoseconds since the Unix epoch. -/
abbrev Time := Int

/-- The zero `time.Time`, January 1 of year 1, 00:00:00 UTC. -/
def zeroTime : Time := -62135596800000000000

/-- The struct `User` (main.go:17-19). -/
structure User where
  Username : String
  deriving DecidableEq, Repr

/-- The struct `ChatMessage` (main.go:22-26). -/
structure ChatMessage where
  Username : String
  Message : String
  SentAt : Time
  deriving DecidableEq, Repr

/-! ## JSON request bodies (`encoding/json`) -/

/-- A member value of the top-level JSON object of a request body.  The
contents of numbers, arrays and nested objects are left out: the fields of
`User` and `ChatMessage` are strings and a time, which reject them whatever
they hold. -/
inductive JsonValue where
  | null
  | bool (b : Bool)
  | number
  | string (s : String)
  | array
  | object
  deriving DecidableEq, Repr

/-- What `json.NewDecoder(r.Body)` finds at the start of the body. -/
inductive Body where
  /-- no well-formed JSON value (an empty body included) -/
  | malformed
  /-- the literal `null` -/
  | null
  /-- an object, its members in the order written -/
  | object (members : List (String × JsonValue))
  /-- a string, number, boolean or array -/
  | other
  deriving DecidableEq, Repr

/-- Case folding of one rune as `encoding/json` applies it to member names:
ASCII letters fold to their capital, and so do the two runes outside ASCII
whose fold orbit holds an ASCII letter (U+017F with `S`, U+212A with `K`).
Other runes fold among runes outside ASCII; they are left as they are, which
does not change whether a name matches one of the ASCII field names. -/
def foldRune (c : Char) : Char :=
  if 97 ≤ c.toNat ∧ c.toNat ≤ 122 then Char.ofNat (c.toNat - 32)
  else if c.toNat = 0x17F then 'S'
  else if c.toNat = 0x212A then 'K'
  else c

/-- The folded form of a member name. -/
def foldName (s : String) : List Char := s.data.map foldRune

/-- A JSON member name selects the struct field tagged `name` when the two
are equal or equal after folding. -/
def jsonFieldMatch (key name : String) : Bool :=
  key == name || foldName key == foldName name

/-- Decoding a member value into a `string` field: a string is stored, `null`
leaves the field as it is, anything else is a type error. -/
def jsonString (cur : String) : JsonValue → Option String
  | .string s => some s
  | .null => some cur
  | _ => none

/-- Decoding a member value into a `time.Time` field (`Time.UnmarshalJSON`):
`null` leaves the field as it is, a string must parse as an RFC 3339
timestamp, anything else is an error.  The parser is a parameter. -/
def jsonTime (parseRFC3339 : String → Option Time) (cur : Time) : JsonValue → Option Time
  | .string s => parseRFC3339 s
  | .null => some cur
  | _ => none

/-- One member of the body object decoded into a `User`. -/
def decodeUserMember (acc : Option User) (kv : String × JsonValue) : Option User :=
  match acc with
  | none => none
  | some u =>
    if jsonFieldMatch kv.1 "username" then (jsonString u.Username kv.2).map fun s => ⟨s⟩
    else some u

/-- The call `json.NewDecoder(r.Body).Decode(&user)` on a zero `User`
(main.go:77-78); `none` stands for a non-nil error. -/
def decodeUser : Body → Option User
  | .malformed => none
  | .null => some ⟨""⟩
  | .object members => members.foldl decodeUserMember (some ⟨""⟩)
  | .other => none

/-- One member of the body object decoded into a `ChatMessage`. -/
def decodeMessageMember (parseRFC3339 : String → Option Time)
    (acc : Option ChatMessage) (kv : String × JsonValue) : Option ChatMessage :=
  match acc with
  | none => none
  | some m =>
    if jsonFieldMatch kv.1 "username" then
      (jsonString m.Username kv.2).map fun s => { m with Username := s }
    else if jsonFieldMatch kv.1 "message" then
      (jsonString m.Message kv.2).map fun s => { m with Message := s }
    else if jsonFieldMatch kv.1 "sent_at" then
      (jsonTime parseRFC3339 m.SentAt kv.2).map fun t => { m with SentAt := t }
    else some m

/-- The call `json.NewDecoder(r.Body).Decode(&message)` on a zero
`ChatMessage` (main.go:101-102); `none` stands for a non-nil error. -/
def decodeMessage (parseRFC3339 : String → Option Time) : Body → Option ChatMessage
  | .malformed => none
  | .null => some ⟨"", "", zeroTime⟩
  | .object members =>
    members.foldl (decodeMessageMember parseRFC3339) (some ⟨"", "", zeroTime⟩)
  | .other => none

/-! ## BSON documents (`mongo-driver/bson`) -/

/-- The BSON values of the model: the two types the handlers write, `null`
and, as a type that neither a Go string nor a `time.Time` decodes from,
booleans. -/
inductive BsonValue where
  | null
  | string (s : String)
  | boolean (b : Bool)
  /-- a UTC datetime, milliseconds since the Unix epoch -/
  | dateTime (ms : Int)
  deriving DecidableEq, Repr

/-- A document: its members in order. -/
abbrev Document := List (String × BsonValue)

/-- The value of a member, by name. -/
def Document.get (d : Document) (key : String) : Option BsonValue :=
  d.lookup key

/-- The member names of a document. -/
def Document.keys (d : Document) : List String :=
  d.map Prod.fst

/-- The struct codec's encoding of a `ChatMessage` (the argument of
`InsertOne`, main.go:108).  `ChatMessage` carries `json` tags only, and
without a `bson` tag the codec names a member by the lowercased Go field
name: `Username`, `Message`, `SentAt` become `username`, `message`,
`sentat`.  A `time.Time` is written as a datetime of whole milliseconds. -/
def marshalChatMessage (m : ChatMessage) : Document :=
  [("username", .string m.Username),
   ("message", .string m.Message),
   ("sentat", .dateTime (m.SentAt / 1000000))]

/-- ASCII lowercasing of a rune. -/
def lowerRune (c : Char) : Char :=
  if 65 ≤ c.toNat ∧ c.toNat ≤ 90 then Char.ofNat (c.toNat + 32) else c

/-- The struct codec looks a member name up among the field names as it is
and, failing that, lowercased.  The three field names hold none of the
letters that a rune outside ASCII lowercases to, so ASCII lowercasing
decides the match. -/
def bsonFieldMatch (key name : String) : Bool :=
  key == name || key.data.map lowerRune == name.data

/-- Decoding a BSON value into a `string` field. -/
def bsonString : BsonValue → Option String
  | .string s => some s
  | .null => some ""
  | _ => none

/-- Decoding a BSON value into a `time.Time` field: a datetime gives its
instant, `null` the zero time, a string must parse (the parser is a
parameter). -/
def bsonTime (parseTime : String → Option Time) : BsonValue → Option Time
  | .dateTime ms => some (ms * 1000000)
  | .null => some zeroTime
  | .string s => parseTime s
  | .boolean _ => none

/-- One member of a document decoded into a `ChatMessage`. -/
def unmarshalMember (parseTime : String → Option Time)
    (acc : Option ChatMessage) (kv : String × BsonValue) : Option ChatMessage :=
  match acc with
  | none => none
  | some m =>
    if bsonFieldMatch kv.1 "username" then
      (bsonString kv.2).map fun s => { m with Username := s }
    else if bsonFieldMatch kv.1 "message" then
      (bsonString kv.2).map fun s => { m with Message := s }
    else if bsonFieldMatch kv.1 "sentat" then
      (bsonTime parseTime kv.2).map fun t => { m with SentAt := t }
    else some m

/-- The struct codec's decoding of a document into a zero `ChatMessage`;
members that match no field are skipped. -/
def unmarshalChatMessage (parseTime : String → Option Time) (d : Document) :
    Option ChatMessage :=
  d.foldl (unmarshalMember parseTime) (some ⟨"", "", zeroTime⟩)

/-! ## The store (`mongo-driver/mongo`) -/

/-- The database `chatdb`: its two collections, documents in insertion
order. -/
structure Db where
  users : List Document
  messages : List Document
  deriving DecidableEq, Repr

/-- What a call of a handler takes from outside the request: the reading of
`time.Now()` and, for each driver call, whether it returns an error. -/
structure Env where
  now : Time
  countErr : Bool
  insertErr : Bool
  findErr : Bool
  cursorErr : Bool
  deriving DecidableEq, Repr

/-- The driver calls a handler makes. -/
inductive StoreOp where
  | countDocuments (username : String)
  | insertOne (doc : Document)
  | find (sortKey : String)
  | cursorAll
  deriving DecidableEq, Repr

/-- The call `userCollection.CountDocuments(ctx, bson.M{"username": u})`
(main.go:83-84): the number of documents whose member `username` is the
string `u`. -/
def countDocuments (env : Env) (users : List Document) (u : String) : Option Nat :=
  if env.countErr then none
  else some (users.filter fun d => d.get "username" == some (.string u)).length

/-- The call `messageCollection.InsertOne(ctx, message)` (main.go:108): the
encoded message is appended; a failed insert leaves the collection as it
was. -/
def insertOne (env : Env) (messages : List Document) (m : ChatMessage) :
    Option (List Document) :=
  if env.insertErr then none else some (messages ++ [marshalChatMessage m])

/-- Rank of a value's type in the BSON comparison order. -/
def BsonValue.rank : BsonValue → Nat
  | .null => 0
  | .string _ => 1
  | .boolean _ => 2
  | .dateTime _ => 3

/-- The comparison `a ≤ b` of the server's sort. -/
def bsonLe : BsonValue → BsonValue → Bool
  | .string a, .string b => decide (a ≤ b)
  | .boolean a, .boolean b => decide (a ≤ b)
  | .dateTime a, .dateTime b => decide (a ≤ b)
  | a, b => decide (a.rank ≤ b.rank)

/-- The sort key of a document: the value of the member, `null` when the
document has no such member. -/
def sortKey (key : String) (d : Document) : BsonValue :=
  (d.get key).getD .null

/-- Insertion of a document before the first one whose key is not smaller. -/
def insertDoc (key : String) (d : Document) : List Document → List Document
  | [] => [d]
  | e :: es =>
    if bsonLe (sortKey key d) (sortKey key e) then d :: e :: es
    else e :: insertDoc key d es

/-- Ascending sort on one member; documents with equal keys keep the order
of the collection. -/
def sortDocs (key : String) : List Document → List Document
  | [] => []
  | d :: ds => insertDoc key d (sortDocs key ds)

/-- The call `messageCollection.Find(ctx, bson.M{}, opts)` with the sort
document `{key: 1}` (main.go:125-126): every document, ascending on `key`. -/
def find (env : Env) (messages : List Document) (key : String) : Option (List Document) :=
  if env.findErr then none else some (sortDocs key messages)

/-- A loop that decodes or encodes the elements in turn and stops at the
first failure. -/
def traverse {α β : Type} (f : α → Option β) : List α → Option (List β)
  | [] => some []
  | a :: as =>
    match f a with
    | none => none
    | some b => (traverse f as).map fun bs => b :: bs

/-- A Go slice: `none` is the nil slice. -/
abbrev Slice (α : Type) := Option (List α)

/-- The call `cursor.All(ctx, &messages)` (main.go:134).  Each document is
decoded in turn and the first failure is returned; the result is the slice
re-sliced to the number of documents decoded, so that without documents a
nil slice stays nil. -/
def cursorAll (parseTime : String → Option Time) (env : Env)
    (results : Slice ChatMessage) (docs : List Document) : Option (Slice ChatMessage) :=
  if env.cursorErr then none
  else match traverse (unmarshalChatMessage parseTime) docs with
    | none => none
    | some [] => some (results.map fun _ => [])
    | some (m :: ms) => some (some (m :: ms))

/-! ## HTTP -/

/-- An HTTP request as the handlers read it. -/
structure Request where
  method : String
  body : Body
  deriving DecidableEq, Repr

/-- A JSON value in a member of an encoded message. -/
inductive JsonField where
  | string (s : String)
  /-- a `time.Time`, written as an RFC 3339 string -/
  | time (t : Time)
  deriving DecidableEq, Repr

/-- What a handler writes as the response body. -/
inductive ResponseBody where
  /-- nothing written -/
  | empty
  /-- `http.Error`: the message and a line feed -/
  | text (msg : String)
  /-- an encoded `map[string]string` -/
  | jsonObject (members : List (String × String))
  /-- the JSON value `null` -/
  | jsonNull
  /-- a JSON array of objects -/
  | jsonArray (items : List (List (String × JsonField)))
  deriving DecidableEq, Repr

/-- The response: status, the `Content-Type` header when the handler sets
it, and the body. -/
structure Response where
  status : Nat
  contentType : Option String
  body : ResponseBody
  deriving DecidableEq, Repr

/-- The call `http.Error(w, msg, code)`. -/
def httpError (msg : String) (code : Nat) : Response :=
  ⟨code, some "text/plain; charset=utf-8", .text (msg ++ "\n")⟩

/-- `Time.MarshalJSON` fails outside the years 0 to 9999. -/
def marshalTime (t : Time) : Option JsonField :=
  if -62167219200000000000 ≤ t ∧ t < 253402300800000000000 then some (.time t) else none

/-- The JSON encoding of one `ChatMessage`: a member per field, named by its
`json` tag. -/
def encodeMessage (m : ChatMessage) : Option (List (String × JsonField)) :=
  (marshalTime m.SentAt).map fun t =>
    [("username", .string m.Username), ("message", .string m.Message), ("sent_at", t)]

/-- The call `json.NewEncoder(w).Encode(messages)` (main.go:141): a nil slice
is written as `null`, any other as an array; when a member fails to encode
nothing is written. -/
def encodeMessages : Slice ChatMessage → ResponseBody
  | none => .jsonNull
  | some ms =>
    match traverse encodeMessage ms with
    | some items => .jsonArray items
    | none => .empty

/-- What a handler call leaves behind. -/
structure Outcome where
  resp : Response
  db : Db
  ops : List StoreOp
  deriving DecidableEq, Repr

/-! ## Handlers -/

/-- The function `loginHandler` (main.go:71-92). -/
def loginHandler (env : Env) (db : Db) (r : Request) : Outcome :=
  if r.method ≠ "POST" then ⟨httpError "Method not allowed" 405, db, []⟩
  else
    match decodeUser r.body with
    | none => ⟨httpError "Invalid request" 400, db, []⟩
    | some user =>
      if user.Username = "" then ⟨httpError "Invalid request" 400, db, []⟩
      else
        match countDocuments env db.users user.Username with
        | none => ⟨httpError "User not found" 401, db, [.countDocuments user.Username]⟩
        | some count =>
          if count = 0 then
            ⟨httpError "User not found" 401, db, [.countDocuments user.Username]⟩
          else
            ⟨⟨200, none, .jsonObject [("status", "ok")]⟩, db, [.countDocuments user.Username]⟩

/-- The function `sendHandler` (main.go:95-116). -/
def sendHandler (parseRFC3339 : String → Option Time) (env : Env) (db : Db) (r : Request) :
    Outcome :=
  if r.method ≠ "POST" then ⟨httpError "Method not allowed" 405, db, []⟩
  else
    match decodeMessage parseRFC3339 r.body with
    | none => ⟨httpError "Invalid request" 400, db, []⟩
    | some decoded =>
      if decoded.Username = "" ∨ decoded.Message = "" then
        ⟨httpError "Invalid request" 400, db, []⟩
      else
        let message : ChatMessage := { decoded with SentAt := env.now }
        match insertOne env db.messages message with
        | none =>
          ⟨httpError "Failed to send message" 500, db, [.insertOne (marshalChatMessage message)]⟩
        | some messages =>
          ⟨⟨200, none, .empty⟩, { db with messages := messages },
            [.insertOne (marshalChatMessage message)]⟩

/-- The function `getMessagesHandler` (main.go:119-142). -/
def getMessagesHandler (parseTime : String → Option Time) (env : Env) (db : Db) (r : Request) :
    Outcome :=
  if r.method ≠ "GET" then ⟨httpError "Method not allowed" 405, db, []⟩
  else
    match find env db.messages "sent_at" with
    | none => ⟨httpError "Failed to get messages" 500, db, [.find "sent_at"]⟩
    | some cursor =>
      match cursorAll parseTime env none cursor with
      | none => ⟨httpError "Error decoding messages" 500, db, [.find "sent_at", .cursorAll]⟩
      | some messages =>
        ⟨⟨200, some "application/json", encodeMessages messages⟩, db,
          [.find "sent_at", .cursorAll]⟩

/-! ## Concrete inputs -/

/-- An environment in which no driver call fails. -/
def quietEnv (now : Time) : Env := ⟨now, false, false, false, false⟩

/-- A time parser that accepts no string. -/
def noTimestamp : String → Option Time := fun _ => none

/-- A time parser that knows the Unix epoch only. -/
def epochOnly : String → Option Time :=
  fun s => if s = "1970-01-01T00:00:00Z" then some 0 else none

/-- The body of a send request without a timestamp. -/
def sendBody (u m : String) : Body :=
  .object [("username", .string u), ("message", .string m)]

/-- A GET request; it has no body. -/
def getRequest : Request := ⟨"GET", .malformed⟩

/-- The store after alice's message, stamped at 2 ms. -/
def afterAlice : Db :=
  (sendHandler noTimestamp (quietEnv 2000000) ⟨[], []⟩ ⟨"POST", sendBody "alice" "a"⟩).db

/-- The store after bob's message, stamped at 1 ms, follows alice's. -/
def afterBob : Db :=
  (sendHandler noTimestamp (quietEnv 1000000) afterAlice ⟨"POST", sendBody "bob" "b"⟩).db

/-- The store after one message stamped at 1.5 ms. -/
def afterHi : Db :=
  (sendHandler noTimestamp (quietEnv 1500000) ⟨[], []⟩ ⟨"POST", sendBody "alice" "hi"⟩).db

/-! ## Auxiliary facts -/

theorem traverse_some_mem {α β : Type} (f : α → Option β) :
    ∀ (l : List α) (r : List β), traverse f l = some r → ∀ a ∈ l, ∃ b ∈ r, f a = some b := by
  intro l
  induction l with
  | nil => intro r _ a ha; cases ha
  | cons x xs ih =>
    intro r h a ha
    unfold traverse at h
    cases hx : f x with
    | none => simp [hx] at h
    | some b =>
      cases hxs : traverse f xs with
      | none => simp [hx, hxs] at h
      | some bs =>
        simp [hx, hxs] at h
        subst h
        rcases List.mem_cons.mp ha with rfl | ha
        · exact ⟨b, List.mem_cons_self _ _, hx⟩
        · obtain ⟨b', hb', hfb⟩ := ih bs hxs a ha
          exact ⟨b', List.mem_cons_of_mem _ hb', hfb⟩

theorem mem_insertDoc (key : String) (d x : Document) (l : List Document) :
    x ∈ insertDoc key d l ↔ x = d ∨ x ∈ l := by
  induction l with
  | nil => simp [insertDoc]
  | cons e es ih =>
    unfold insertDoc
    split
    · simp
    · simp [ih]; tauto

theorem mem_sortDocs (key : String) (x : Document) (l : List Document) :
    x ∈ sortDocs key l ↔ x ∈ l := by
  induction l with
  | nil => simp [sortDocs]
  | cons e es ih => simp [sortDocs, mem_insertDoc, ih]

theorem sortDocs_of_no_key (key : String) (l : List Document)
    (h : ∀ d ∈ l, d.get key = none) : sortDocs key l = l := by
  induction l with
  | nil => rfl
  | cons e es ih =>
    have hes : ∀ d ∈ es, d.get key = none := fun d hd => h d (List.mem_cons_of_mem _ hd)
    rw [sortDocs, ih hes]
    cases es with
    | nil => rfl
    | cons e2 es2 =>
      have h1 : sortKey key e = .null := by simp [sortKey, h e (List.mem_cons_self _ _)]
      have h2 : sortKey key e2 = .null := by
        simp [sortKey, h e2 (List.mem_cons_of_mem _ (List.mem_cons_self _ _))]
      simp [insertDoc, h1, h2, bsonLe, BsonValue.rank]

theorem marshal_get_sent_at (m : ChatMessage) : (marshalChatMessage m).get "sent_at" = none := by
  have e1 : ("sent_at" == "username") = false := by decide
  have e2 : ("sent_at" == "message") = false := by decide
  have e3 : ("sent_at" == "sentat") = false := by decide
  simp [marshalChatMessage, Document.get, List.lookup, e1, e2, e3]

theorem unmarshal_marshal (parseTime : String → Option Time) (m : ChatMessage) :
    unmarshalChatMessage parseTime (marshalChatMessage m)
      = some ⟨m.Username, m.Message, m.SentAt / 1000000 * 1000000⟩ := by
  have e1 : bsonFieldMatch "username" "username" = true := by decide
  have e2 : bsonFieldMatch "message" "username" = false := by decide
  have e3 : bsonFieldMatch "message" "message" = true := by decide
  have e4 : bsonFieldMatch "sentat" "username" = false := by decide
  have e5 : bsonFieldMatch "sentat" "message" = false := by decide
  have e6 : bsonFieldMatch "sentat" "sentat" = true := by decide
  simp [unmarshalChatMessage, marshalChatMessage, unmarshalMember, bsonString, bsonTime,
    e1, e2, e3, e4, e5, e6]

theorem sendHandler_valid (parseRFC3339 : String → Option Time) (env : Env) (db : Db)
    (body : Body) (u m : String) (c : Time)
    (hd : decodeMessage parseRFC3339 body = some ⟨u, m, c⟩) (hu : u ≠ "") (hm : m ≠ "") :
    sendHandler parseRFC3339 env db ⟨"POST", body⟩ =
      if env.insertErr then
        ⟨httpError "Failed to send message" 500, db, [.insertOne (marshalChatMessage ⟨u, m, env.now⟩)]⟩
      else
        ⟨⟨200, none, .empty⟩, ⟨db.users, db.messages ++ [marshalChatMessage ⟨u, m, env.now⟩]⟩,
          [.insertOne (marshalChatMessage ⟨u, m, env.now⟩)]⟩ := by
  simp only [sendHandler, hd, insertOne]
  by_cases hi : env.insertErr = true <;> simp [hi, hu, hm]

theorem floor_ms_bounds (t : Int) :
    t / 1000000 * 1000000 ≤ t ∧ t < t / 1000000 * 1000000 + 1000000 := by
  omega

theorem getMessages_array (parseTime : String → Option Time) (env : Env) (db : Db)
    (r : Request) (items : List (List (String × JsonField)))
    (h : (getMessagesHandler parseTime env db r).resp.body = .jsonArray items) :
    ∃ ms, traverse (unmarshalChatMessage parseTime) (sortDocs "sent_at" db.messages) = some ms ∧
      traverse encodeMessage ms = some items := by
  unfold getMessagesHandler at h
  by_cases hm : r.method = "GET"
  · by_cases hf : env.findErr = true
    · simp [hm, find, hf, httpError] at h
    · by_cases hc : env.cursorErr = true
      · simp [hm, find, hf, cursorAll, hc, httpError] at h
      · cases htr : traverse (unmarshalChatMessage parseTime) (sortDocs "sent_at" db.messages) with
        | none => simp [hm, find, hf, cursorAll, hc, htr, httpError] at h
        | some ms =>
          refine ⟨ms, rfl, ?_⟩
          cases ms with
          | nil => simp [hm, find, hf, cursorAll, hc, htr, encodeMessages] at h
          | cons m0 ms0 =>
            cases henc : traverse encodeMessage (m0 :: ms0) with
            | none => simp [hm, find, hf, cursorAll, hc, htr, encodeMessages, henc] at h
            | some encoded =>
              simp [hm, find, hf, cursorAll, hc, htr, encodeMessages, henc] at h
              rw [h]
  · simp [hm, httpError] at h

/-! ## Claims -/

/-- C1 (fails on the code): the listing follows the order of insertion, not
the order of the stored timestamps.  A collection that holds encoded messages
only is returned by the sort on `sent_at` as it is, whatever the timestamps;
and after alice's message stamped at 2 ms and bob's stamped at 1 ms the
listing has alice's first. -/
theorem getMessages_keeps_insertion_order :
    (∀ ms : List ChatMessage,
        sortDocs "sent_at" (ms.map marshalChatMessage) = ms.map marshalChatMessage) ∧
    (sendHandler noTimestamp (quietEnv 2000000) ⟨[], []⟩
        ⟨"POST", sendBody "alice" "a"⟩).resp.status = 200 ∧
    (sendHandler noTimestamp (quietEnv 1000000) afterAlice
        ⟨"POST", sendBody "bob" "b"⟩).resp.status = 200 ∧
    (getMessagesHandler noTimestamp (quietEnv 3000000) afterBob getRequest).resp =
      ⟨200, some "application/json", .jsonArray
        [[("username", .string "alice"), ("message", .string "a"), ("sent_at", .time 2000000)],
         [("username", .string "bob"), ("message", .string "b"), ("sent_at", .time 1000000)]]⟩ := by
  refine ⟨fun ms => ?_, by decide, by decide, by decide⟩
  apply sortDocs_of_no_key
  intro d hd
  obtain ⟨m, _, rfl⟩ := List.mem_map.mp hd
  exact marshal_get_sent_at m

/-- C2: a POST /login whose body decodes to a non-empty username `u` is
answered 200 with the body `{"status":"ok"}` exactly when the count succeeds
and some user document has the username `u`; otherwise it is answered 401. -/
theorem loginHandler_ok_iff (env : Env) (db : Db) (r : Request) (u : String)
    (hm : r.method = "POST") (hd : decodeUser r.body = some ⟨u⟩) (hu : u ≠ "") :
    ((loginHandler env db r).resp = ⟨200, none, .jsonObject [("status", "ok")]⟩ ↔
      (env.countErr = false ∧ ∃ d ∈ db.users, d.get "username" = some (.string u))) ∧
    (¬ (env.countErr = false ∧ ∃ d ∈ db.users, d.get "username" = some (.string u)) →
      (loginHandler env db r).resp.status = 401) := by
  by_cases hc : env.countErr = true
  · simp [loginHandler, hm, hd, hu, countDocuments, hc, httpError]
  · have hc' : env.countErr = false := by simpa using hc
    by_cases hex : ∃ d ∈ db.users, d.get "username" = some (.string u)
    · have hne : ¬ (List.filter (fun d : Document => d.get "username" == some (.string u))
          db.users) = [] := by
        obtain ⟨d, hdm, hdu⟩ := hex
        intro hnil
        have : d ∈ List.filter (fun d : Document => d.get "username" == some (.string u))
            db.users := by
          simp [List.mem_filter, hdm, hdu]
        rw [hnil] at this
        cases this
      simp [loginHandler, hm, hd, hu, countDocuments, hc', hne, hex]
    · have hnil : (List.filter (fun d : Document => d.get "username" == some (.string u))
          db.users) = [] := by
        rw [List.filter_eq_nil_iff]
        intro d hdm hdu
        exact hex ⟨d, hdm, by simpa using hdu⟩
      simp [loginHandler, hm, hd, hu, countDocuments, hc', hnil, hex, httpError]

/-- Witness of C2: alice is in the user store and logs in. -/
theorem loginHandler_ok_iff_witness :
    ((loginHandler (quietEnv 0) ⟨[[("username", .string "alice")]], []⟩
        ⟨"POST", .object [("username", .string "alice")]⟩).resp
        = ⟨200, none, .jsonObject [("status", "ok")]⟩ ↔
      ((quietEnv 0).countErr = false ∧
        ∃ d ∈ [[("username", BsonValue.string "alice")]],
          Document.get d "username" = some (.string "alice"))) ∧
    (¬ ((quietEnv 0).countErr = false ∧
        ∃ d ∈ [[("username", BsonValue.string "alice")]],
          Document.get d "username" = some (.string "alice")) →
      (loginHandler (quietEnv 0) ⟨[[("username", .string "alice")]], []⟩
        ⟨"POST", .object [("username", .string "alice")]⟩).resp.status = 401) :=
  loginHandler_ok_iff (quietEnv 0) ⟨[[("username", .string "alice")]], []⟩
    ⟨"POST", .object [("username", .string "alice")]⟩ "alice" rfl (by decide) (by decide)

/-- C3: a POST /send whose body fails to decode, or decodes to an empty
username or an empty message, is answered 400; the store is left as it was
and no driver call is made. -/
theorem sendHandler_invalid (parseRFC3339 : String → Option Time) (env : Env) (db : Db)
    (r : Request) (hm : r.method = "POST")
    (h : decodeMessage parseRFC3339 r.body = none ∨
      ∃ m, decodeMessage parseRFC3339 r.body = some m ∧ (m.Username = "" ∨ m.Message = "")) :
    (sendHandler parseRFC3339 env db r).resp.status = 400 ∧
    (sendHandler parseRFC3339 env db r).db = db ∧
    (sendHandler parseRFC3339 env db r).ops = [] := by
  rcases h with h | ⟨m, h, hempty⟩
  · simp [sendHandler, hm, h, httpError]
  · simp [sendHandler, hm, h, hempty, httpError]

/-- Witness of C3: the body `{}` decodes to a message with an empty
username. -/
theorem sendHandler_invalid_witness :
    (decodeMessage noTimestamp (Body.object []) = none ∨
      ∃ m, decodeMessage noTimestamp (Body.object []) = some m ∧
        (m.Username = "" ∨ m.Message = "")) ∧
    (sendHandler noTimestamp (quietEnv 5) afterAlice ⟨"POST", .object []⟩).resp.status = 400 ∧
    (sendHandler noTimestamp (quietEnv 5) afterAlice ⟨"POST", .object []⟩).db = afterAlice ∧
    (sendHandler noTimestamp (quietEnv 5) afterAlice ⟨"POST", .object []⟩).ops = [] :=
  ⟨Or.inr ⟨⟨"", "", zeroTime⟩, rfl, Or.inl rfl⟩,
   sendHandler_invalid noTimestamp (quietEnv 5) afterAlice ⟨"POST", .object []⟩ rfl
    (Or.inr ⟨⟨"", "", zeroTime⟩, rfl, Or.inl rfl⟩)⟩

/-- C4 as stated fails: a message stamped at 1.5 ms comes back with the
timestamp 1 ms, not with the server time of the request. -/
theorem roundtrip_sent_at_not_server_time :
    (sendHandler noTimestamp (quietEnv 1500000) ⟨[], []⟩
        ⟨"POST", sendBody "alice" "hi"⟩).resp.status = 200 ∧
    (getMessagesHandler noTimestamp (quietEnv 2000000) afterHi getRequest).resp =
      ⟨200, some "application/json", .jsonArray
        [[("username", .string "alice"), ("message", .string "hi"),
          ("sent_at", .time 1000000)]]⟩ ∧
    ¬ (∀ items, (getMessagesHandler noTimestamp (quietEnv 2000000) afterHi getRequest).resp.body
          = .jsonArray items →
        [("username", JsonField.string "alice"), ("message", .string "hi"),
          ("sent_at", .time (quietEnv 1500000).now)] ∈ items) := by
  refine ⟨by decide, by decide, fun h => ?_⟩
  have hmem := h [[("username", .string "alice"), ("message", .string "hi"),
      ("sent_at", .time 1000000)]] (by decide)
  revert hmem
  decide

/-- C4 (amended): a valid POST /send handled at server time `t` without an
insert failure is answered 200 and appends the document with the username,
the message and `t` cut to whole milliseconds, whatever timestamp the body
carried; every listing of that store that answers with an array holds the
record with that username, message and timestamp; the timestamp is at most
`t` and less than one millisecond before it. -/
theorem send_then_list_roundtrip (parseRFC3339 parseTime : String → Option Time)
    (env env2 : Env) (db : Db) (body : Body) (u m : String) (c : Time)
    (hd : decodeMessage parseRFC3339 body = some ⟨u, m, c⟩) (hu : u ≠ "") (hm : m ≠ "")
    (hi : env.insertErr = false) :
    (sendHandler parseRFC3339 env db ⟨"POST", body⟩).resp.status = 200 ∧
    (sendHandler parseRFC3339 env db ⟨"POST", body⟩).db.messages =
      db.messages ++ [[("username", .string u), ("message", .string m),
        ("sentat", .dateTime (env.now / 1000000))]] ∧
    (∀ items,
      (getMessagesHandler parseTime env2 (sendHandler parseRFC3339 env db ⟨"POST", body⟩).db
          getRequest).resp.body = .jsonArray items →
      [("username", JsonField.string u), ("message", .string m),
        ("sent_at", .time (env.now / 1000000 * 1000000))] ∈ items) ∧
    env.now / 1000000 * 1000000 ≤ env.now ∧
    env.now < env.now / 1000000 * 1000000 + 1000000 := by
  have hs := sendHandler_valid parseRFC3339 env db body u m c hd hu hm
  simp only [hi, Bool.false_eq_true, if_false] at hs
  refine ⟨by rw [hs], by rw [hs]; rfl, ?_, ?_, ?_⟩
  · intro items hitems
    rw [hs] at hitems
    obtain ⟨ms, htr, henc⟩ := getMessages_array _ _ _ _ _ hitems
    have hmemdoc : marshalChatMessage ⟨u, m, env.now⟩ ∈
        sortDocs "sent_at" (db.messages ++ [marshalChatMessage ⟨u, m, env.now⟩]) := by
      rw [mem_sortDocs]; simp
    obtain ⟨msg, hmsg, hdec⟩ := traverse_some_mem _ _ _ htr _ hmemdoc
    rw [unmarshal_marshal] at hdec
    obtain ⟨item, hitem, hen⟩ := traverse_some_mem _ _ _ henc _ hmsg
    have hmsg' : msg = ⟨u, m, env.now / 1000000 * 1000000⟩ := by simpa using hdec.symm
    subst hmsg'
    unfold encodeMessage marshalTime at hen
    by_cases hr : -62167219200000000000 ≤ env.now / 1000000 * 1000000 ∧
        env.now / 1000000 * 1000000 < 253402300800000000000
    · simp only [hr, and_self, if_true, Option.map_some', Option.some.injEq] at hen
      rw [hen]; exact hitem
    · simp [hr] at hen
  · exact (floor_ms_bounds env.now).1
  · exact (floor_ms_bounds env.now).2

/-- Witness of C4: a body that carries the epoch as its timestamp, handled
at 1.5 ms. -/
theorem send_then_list_roundtrip_witness :
    (sendHandler epochOnly (quietEnv 1500000) ⟨[], []⟩
      ⟨"POST", .object [("username", .string "alice"), ("message", .string "hi"),
        ("sent_at", .string "1970-01-01T00:00:00Z")]⟩).db.messages =
      [[("username", .string "alice"), ("message", .string "hi"), ("sentat", .dateTime 1)]] ∧
    (getMessagesHandler noTimestamp (quietEnv 2000000)
      (sendHandler epochOnly (quietEnv 1500000) ⟨[], []⟩
        ⟨"POST", .object [("username", .string "alice"), ("message", .string "hi"),
          ("sent_at", .string "1970-01-01T00:00:00Z")]⟩).db getRequest).resp.body =
      .jsonArray [[("username", .string "alice"), ("message", .string "hi"),
        ("sent_at", .time 1000000)]] ∧
    [("username", JsonField.string "alice"), ("message", .string "hi"),
        ("sent_at", .time 1000000)] ∈
      [[("username", JsonField.string "alice"), ("message", .string "hi"),
        ("sent_at", .time 1000000)]] :=
  have h := send_then_list_roundtrip epochOnly noTimestamp (quietEnv 1500000)
    (quietEnv 2000000) ⟨[], []⟩
    (.object [("username", .string "alice"), ("message", .string "hi"),
      ("sent_at", .string "1970-01-01T00:00:00Z")]) "alice" "hi" 0
    (by decide) (by decide) (by decide) rfl
  ⟨h.2.1, by decide, h.2.2.1 _ (by decide)⟩

/-- C5 (fails on the code): with an empty message collection and no driver
failure, GET /messages is answered 200 with the body `null`: the nil slice
stays nil and is encoded as `null`, not as `[]`. -/
theorem getMessages_empty_store_null (parseTime : String → Option Time) (now : Time)
    (countErr insertErr : Bool) (users : List Document) (body : Body) :
    getMessagesHandler parseTime ⟨now, countErr, insertErr, false, false⟩ ⟨users, []⟩
        ⟨"GET", body⟩ =
      ⟨⟨200, some "application/json", .jsonNull⟩, ⟨users, []⟩,
        [.find "sent_at", .cursorAll]⟩ := by
  simp [getMessagesHandler, find, sortDocs, cursorAll, traverse, encodeMessages]

/-- C6 as stated fails: a login request that passes the method and input
checks and whose count fails is answered 401, not 500. -/
theorem login_count_failure_not_500 :
    loginHandler ⟨0, true, false, false, false⟩ ⟨[[("username", .string "alice")]], []⟩
        ⟨"POST", .object [("username", .string "alice")]⟩ =
      ⟨httpError "User not found" 401, ⟨[[("username", .string "alice")]], []⟩,
        [.countDocuments "alice"]⟩ ∧
    (loginHandler ⟨0, true, false, false, false⟩ ⟨[[("username", .string "alice")]], []⟩
        ⟨"POST", .object [("username", .string "alice")]⟩).resp.status ≠ 500 := by
  decide

/-- C6 (amended): past the method and input checks, a failed insert makes
sendHandler answer 500, a failed query or a failed decoding of the cursor
makes getMessagesHandler answer 500, and a failed count makes loginHandler
answer 401. -/
theorem store_failure_status (parseRFC3339 parseTime : String → Option Time) (env : Env)
    (db : Db) (r : Request) :
    (r.method = "POST" →
      ∀ m, decodeMessage parseRFC3339 r.body = some m → m.Username ≠ "" → m.Message ≠ "" →
        insertOne env db.messages { m with SentAt := env.now } = none →
        (sendHandler parseRFC3339 env db r).resp.status = 500) ∧
    (r.method = "GET" →
      (find env db.messages "sent_at" = none ∨
        ∃ cursor, find env db.messages "sent_at" = some cursor ∧
          cursorAll parseTime env none cursor = none) →
      (getMessagesHandler parseTime env db r).resp.status = 500) ∧
    (r.method = "POST" →
      ∀ u, decodeUser r.body = some u → u.Username ≠ "" →
        countDocuments env db.users u.Username = none →
        (loginHandler env db r).resp.status = 401) := by
  refine ⟨?_, ?_, ?_⟩
  · intro hm m hd hu hmsg hins
    simp [sendHandler, hm, hd, hu, hmsg, hins, httpError]
  · intro hm h
    rcases h with h | ⟨cursor, hf, hc⟩
    · simp [getMessagesHandler, hm, h, httpError]
    · simp [getMessagesHandler, hm, hf, hc, httpError]
  · intro hm u hd hu hc
    simp [loginHandler, hm, hd, hu, hc, httpError]

/-- Witness of C6: an insert that fails, a stored document whose username is
a boolean and does not decode, and a count that fails. -/
theorem store_failure_status_witness :
    (sendHandler noTimestamp ⟨0, false, true, false, false⟩ ⟨[], []⟩
        ⟨"POST", sendBody "alice" "hi"⟩).resp.status = 500 ∧
    (getMessagesHandler noTimestamp (quietEnv 0) ⟨[], [[("username", .boolean true)]]⟩
        getRequest).resp.status = 500 ∧
    (loginHandler ⟨0, true, false, false, false⟩ ⟨[[("username", .string "alice")]], []⟩
        ⟨"POST", .object [("username", .string "alice")]⟩).resp.status = 401 :=
  ⟨(store_failure_status noTimestamp noTimestamp ⟨0, false, true, false, false⟩ ⟨[], []⟩
      ⟨"POST", sendBody "alice" "hi"⟩).1 rfl ⟨"alice", "hi", zeroTime⟩ (by decide) (by decide)
      (by decide) (by decide),
   (store_failure_status noTimestamp noTimestamp (quietEnv 0)
      ⟨[], [[("username", .boolean true)]]⟩ getRequest).2.1 rfl
      (Or.inr ⟨[[("username", .boolean true)]], by decide, by decide⟩),
   (store_failure_status noTimestamp noTimestamp ⟨0, true, false, false, false⟩
      ⟨[[("username", .string "alice")]], []⟩
      ⟨"POST", .object [("username", .string "alice")]⟩).2.2 rfl ⟨"alice"⟩ (by decide)
      (by decide) (by decide)⟩

/-- C7 (fails on the code): the document that sendHandler persists has the
members `username`, `message` and `sentat`; it has no member `sent_at`, so
its key in the sort on `sent_at` is `null`. -/
theorem sendHandler_stores_sentat :
    (∀ m : ChatMessage,
      (marshalChatMessage m).keys = ["username", "message", "sentat"] ∧
      (marshalChatMessage m).get "sent_at" = none ∧
      sortKey "sent_at" (marshalChatMessage m) = .null) ∧
    (sendHandler noTimestamp (quietEnv 1000000) ⟨[], []⟩
        ⟨"POST", sendBody "alice" "hi"⟩).db.messages =
      [[("username", .string "alice"), ("message", .string "hi"), ("sentat", .dateTime 1)]] := by
  refine ⟨fun m => ⟨rfl, marshal_get_sent_at m, ?_⟩, by decide⟩
  simp [sortKey, marshal_get_sent_at]

/-- C8: two successful POST /send requests with the same valid payload leave
the message collection with two more documents, one appended by each
request; the documents that were there stay in place and the user
collection is the same. -/
theorem send_twice_appends_two (parseRFC3339 : String → Option Time) (env1 env2 : Env)
    (db : Db) (body : Body) (u m : String) (c : Time)
    (hd : decodeMessage parseRFC3339 body = some ⟨u, m, c⟩) (hu : u ≠ "") (hm : m ≠ "")
    (h1 : (sendHandler parseRFC3339 env1 db ⟨"POST", body⟩).resp.status = 200)
    (h2 : (sendHandler parseRFC3339 env2 (sendHandler parseRFC3339 env1 db ⟨"POST", body⟩).db
        ⟨"POST", body⟩).resp.status = 200) :
    (sendHandler parseRFC3339 env1 db ⟨"POST", body⟩).db.messages =
      db.messages ++ [marshalChatMessage ⟨u, m, env1.now⟩] ∧
    (sendHandler parseRFC3339 env2 (sendHandler parseRFC3339 env1 db ⟨"POST", body⟩).db
        ⟨"POST", body⟩).db.messages =
      db.messages ++ [marshalChatMessage ⟨u, m, env1.now⟩, marshalChatMessage ⟨u, m, env2.now⟩] ∧
    (sendHandler parseRFC3339 env2 (sendHandler parseRFC3339 env1 db ⟨"POST", body⟩).db
        ⟨"POST", body⟩).db.messages.length = db.messages.length + 2 ∧
    (sendHandler parseRFC3339 env2 (sendHandler parseRFC3339 env1 db ⟨"POST", body⟩).db
        ⟨"POST", body⟩).db.messages.take db.messages.length = db.messages ∧
    (sendHandler parseRFC3339 env2 (sendHandler parseRFC3339 env1 db ⟨"POST", body⟩).db
        ⟨"POST", body⟩).db.users = db.users := by
  have hs1 := sendHandler_valid parseRFC3339 env1 db body u m c hd hu hm
  cases hi1 : env1.insertErr with
  | true => rw [hs1] at h1; simp [hi1, httpError] at h1
  | false =>
    simp only [hi1, Bool.false_eq_true, if_false] at hs1
    rw [hs1] at h2 ⊢
    have hs2 := sendHandler_valid parseRFC3339 env2
      ⟨db.users, db.messages ++ [marshalChatMessage ⟨u, m, env1.now⟩]⟩ body u m c hd hu hm
    cases hi2 : env2.insertErr with
    | true => rw [hs2] at h2; simp [hi2, httpError] at h2
    | false =>
      simp only [hi2, Bool.false_eq_true, if_false] at hs2
      rw [hs2]
      simp

/-- Witness of C8: alice sends `hi` twice, at 1 ms and at 2 ms. -/
theorem send_twice_appends_two_witness :
    (sendHandler noTimestamp (quietEnv 2000000)
        (sendHandler noTimestamp (quietEnv 1000000) afterBob
          ⟨"POST", sendBody "alice" "hi"⟩).db
        ⟨"POST", sendBody "alice" "hi"⟩).db.messages =
      afterBob.messages ++ [marshalChatMessage ⟨"alice", "hi", 1000000⟩,
        marshalChatMessage ⟨"alice", "hi", 2000000⟩] :=
  (send_twice_appends_two noTimestamp (quietEnv 1000000) (quietEnv 2000000) afterBob
    (sendBody "alice" "hi") "alice" "hi" zeroTime (by decide) (by decide) (by decide)
    (by decide) (by decide)).2.1

/-- C9: loginHandler and sendHandler answer 405 to every request whose method
is not POST, and getMessagesHandler to every request whose method is not
GET, whatever the body, the store and the environment; the store is left as
it was and no driver call is made. -/
theorem method_mismatch_405 (parseRFC3339 parseTime : String → Option Time) (env : Env)
    (db : Db) (r : Request) :
    (r.method ≠ "POST" →
      loginHandler env db r = ⟨httpError "Method not allowed" 405, db, []⟩ ∧
      sendHandler parseRFC3339 env db r = ⟨httpError "Method not allowed" 405, db, []⟩) ∧
    (r.method ≠ "GET" →
      getMessagesHandler parseTime env db r = ⟨httpError "Method not allowed" 405, db, []⟩) ∧
    (httpError "Method not allowed" 405).status = 405 := by
  refine ⟨fun h => ⟨?_, ?_⟩, fun h => ?_, rfl⟩
  · simp [loginHandler, h]
  · simp [sendHandler, h]
  · simp [getMessagesHandler, h]

/-- Witness of C9: a GET with a valid login body, a PUT with a valid message,
and a POST to the listing. -/
theorem method_mismatch_405_witness :
    (loginHandler (quietEnv 0) afterBob
        ⟨"GET", .object [("username", .string "alice")]⟩).resp.status = 405 ∧
    (sendHandler noTimestamp (quietEnv 0) afterBob ⟨"PUT", sendBody "alice" "hi"⟩) =
      ⟨httpError "Method not allowed" 405, afterBob, []⟩ ∧
    (getMessagesHandler noTimestamp (quietEnv 0) afterBob ⟨"POST", .malformed⟩) =
      ⟨httpError "Method not allowed" 405, afterBob, []⟩ :=
  ⟨by
    rw [((method_mismatch_405 noTimestamp noTimestamp (quietEnv 0) afterBob
      ⟨"GET", .object [("username", .string "alice")]⟩).1 (by decide)).1]
    rfl,
   ((method_mismatch_405 noTimestamp noTimestamp (quietEnv 0) afterBob
      ⟨"PUT", sendBody "alice" "hi"⟩).1 (by decide)).2,
   (method_mismatch_405 noTimestamp noTimestamp (quietEnv 0) afterBob
      ⟨"POST", .malformed⟩).2.1 (by decide)⟩

/-- C10: a POST /login whose body fails to decode or decodes to an empty
username is answered 400 with no driver call; the outcome is the same for
every environment and every store. -/
theorem loginHandler_invalid (env : Env) (db : Db) (r : Request) (hm : r.method = "POST")
    (h : decodeUser r.body = none ∨ decodeUser r.body = some ⟨""⟩) :
    loginHandler env db r = ⟨httpError "Invalid request" 400, db, []⟩ ∧
    (loginHandler env db r).resp.status = 400 ∧
    ∀ (env2 : Env) (db2 : Db), (loginHandler env2 db2 r).resp = (loginHandler env db r).resp := by
  have key : ∀ (e : Env) (d : Db), loginHandler e d r = ⟨httpError "Invalid request" 400, d, []⟩ := by
    intro e d
    rcases h with h | h
    · simp [loginHandler, hm, h]
    · simp [loginHandler, hm, h]
  refine ⟨key env db, by rw [key env db]; rfl, fun env2 db2 => by rw [key env db, key env2 db2]⟩

/-- Witness of C10: the body `{"username":""}`, with alice in the store and
with a count that would fail. -/
theorem loginHandler_invalid_witness :
    decodeUser (.object [("username", .string "")]) = some ⟨""⟩ ∧
    loginHandler ⟨0, true, false, false, false⟩ ⟨[[("username", .string "alice")]], []⟩
        ⟨"POST", .object [("username", .string "")]⟩ =
      ⟨httpError "Invalid request" 400, ⟨[[("username", .string "alice")]], []⟩, []⟩ :=
  ⟨by decide,
   (loginHandler_invalid ⟨0, true, false, false, false⟩ ⟨[[("username", .string "alice")]], []⟩
      ⟨"POST", .object [("username", .string "")]⟩ rfl (Or.inr (by decide))).1⟩

end ChatBackend
